import Mathlib

/-!
Verification of the mailbox subsystem of quanteckio/omni-email
(`src/routes/mailboxRouter.js`), shallowly embedded in Lean.

Modelling conventions:
* JavaScript strings are Lean `String`s; where character-level behaviour
  matters (email masking) they are `List Char`.
* Randomness (salt, iv, fresh timestamps) is passed in as explicit inputs.
* The Node `crypto` AEAD primitive (AES-256-GCM) is idealized: a sealed box
  records the key, iv and associated data it was produced under, and opening
  succeeds exactly when all three match (the authentication tag binds them).
  HKDF-SHA256 is idealized as a deterministic function of master key, salt
  and info string.
* The Upstash Redis store is an in-memory association list of string keys to
  records, plus an association list of string keys to string sets.
* Fallible JavaScript code (`throw` / rejected promises caught by the route
  handlers) is modelled with `Except Err`.
-/

namespace OmniEmail

/-- Error kinds thrown by the mailbox router code. -/
inductive Err where
  | configRequired        -- "CONFIG_MASTER_KEY_BASE64 is required"
  | configNot32           -- "CONFIG_MASTER_KEY_BASE64 must be 32 bytes (base64 of 32 bytes)"
  | unsupportedEnvelope   -- "Unsupported envelope"
  | authFailure           -- AES-GCM tag verification failure in decipher.final()
  | accountNotFound       -- "Account not found"
  | validationError       -- zod schema parse failure
deriving DecidableEq

/-- Connection parameters for one mail server (the `ServerSettings` zod
object of mailboxRouter.js): `server`, `port`, `username`, `password`,
`connection`. The `connection` field is kept as the literal string the zod
enum would pass through. -/
structure ServerSettings where
  server : String
  port : Int
  username : String
  password : String
  connection : String
deriving DecidableEq

/-- Decrypted credential payload (the `SecretPayload` zod object):
optional label, primary email, imap and smtp settings. -/
structure Secret where
  label : Option String
  primaryEmail : String
  imap : ServerSettings
  smtp : ServerSettings
deriving DecidableEq

/-- Idealized AES-256-GCM sealed box (ciphertext plus 16-byte tag). The tag
authenticates the derived key, the iv, the associated data and the
ciphertext, so the model records all of them; opening succeeds exactly when
key, iv and AAD coincide with the ones used at sealing time. -/
structure GCMSealed where
  key : Nat
  iv : Nat
  aad : String
  pt : Secret
deriving DecidableEq

/-- Idealized `crypto.createCipheriv("aes-256-gcm", key, iv)` +
`setAAD` + `update/final/getAuthTag`. -/
def aesGcmSeal (key iv : Nat) (aad : String) (pt : Secret) : GCMSealed :=
  { key := key, iv := iv, aad := aad, pt := pt }

/-- Idealized `crypto.createDecipheriv("aes-256-gcm", key, iv)` +
`setAAD` + `setAuthTag` + `update/final`: returns the plaintext only when
key, iv and AAD all match the sealing parameters, otherwise fails (the
GCM tag check throws) and no partial plaintext escapes. -/
def aesGcmOpen (key iv : Nat) (aad : String) (c : GCMSealed) : Option Secret :=
  if c.key = key ∧ c.iv = iv ∧ c.aad = aad then some c.pt else none

/-- Process configuration: the base64-decoded bytes of
`CONFIG_MASTER_KEY_BASE64`, or `none` when the variable is unset/empty
(`Buffer.from(b64, "base64")` itself never fails). -/
def Config : Type := Option (List Nat)

/-- Embeds `getMasterKey()` (mailboxRouter.js lines 21-29): throws when the
variable is falsy, throws when the decoded key is not exactly 32 bytes,
otherwise returns the key. -/
def getMasterKey (cfg : Config) : Except Err (List Nat) :=
  match cfg with
  | none => .error .configRequired
  | some key => if key.length = 32 then .ok key else .error .configNot32

/-- Idealized deterministic HKDF-SHA256: any function of (master, salt,
info) serves the model, since the claims only need determinism. -/
def hkdfSHA256 (master : List Nat) (salt : Nat) (info : String) : Nat :=
  Nat.pair (master.foldl (fun a b => a * 256 + b) 1) (Nat.pair salt info.length)

/-- Embeds `hkdfSubkey(salt, info)` (lines 31-34): reads the master key
(throwing on bad configuration) and derives the per-record subkey. -/
def hkdfSubkey (cfg : Config) (salt : Nat) (info : String) : Except Err Nat :=
  (getMasterKey cfg).map (fun master => hkdfSHA256 master salt info)

/-- Stored ciphertext container produced by `encryptJSON` (lines 45-52):
version, algorithm name, salt, iv, and the sealed tag+ciphertext. -/
structure Envelope where
  v : Nat
  alg : String
  salt : Nat
  iv : Nat
  box : GCMSealed
deriving DecidableEq

/-- Pure core of `encryptJSON` once the master key is in hand: derive the
subkey from the fresh salt, seal the payload under the AAD with the fresh
iv, and assemble the version-1 envelope. -/
def sealEnvelope (master : List Nat) (payload : Secret) (aad : String)
    (salt iv : Nat) : Envelope :=
  { v := 1
    alg := "AES-256-GCM"
    salt := salt
    iv := iv
    box := aesGcmSeal (hkdfSHA256 master salt "mailbox:v1") iv aad payload }

/-- Embeds `encryptJSON(payload, aad)` (lines 36-53). The fresh random
salt and iv are explicit inputs; the master-key lookup inside
`hkdfSubkey` is the only failure. -/
def encryptJSON (cfg : Config) (payload : Secret) (aad : String)
    (salt iv : Nat) : Except Err Envelope :=
  (getMasterKey cfg).map (fun master => sealEnvelope master payload aad salt iv)

/-- Embeds `decryptJSON(env, aad)` (lines 55-67): rejects anything that is
not a version-1 AES-256-GCM envelope, re-derives the subkey from the
stored salt, and opens the sealed box under the caller's AAD; a tag
mismatch surfaces as `authFailure` with no partial plaintext. -/
def decryptJSON (cfg : Config) (env : Envelope) (aad : String) :
    Except Err Secret :=
  if env.v = 1 ∧ env.alg = "AES-256-GCM" then
    match hkdfSubkey cfg env.salt "mailbox:v1" with
    | .error e => .error e
    | .ok key =>
      match aesGcmOpen key env.iv aad env.box with
      | some pt => .ok pt
      | none => .error .authFailure
  else .error .unsupportedEnvelope

/-- The associated-data tag the router builds at every call site:
the literal template string `{accountId}:{integrationId}` (the spec's
tenantId is the code's integrationId). -/
def mkAAD (accountId integrationId : String) : String :=
  accountId ++ ":" ++ integrationId

/-- Appending the same string on the right is injective. -/
theorem append_right_inj {a b t : String} (h : a ++ t = b ++ t) : a = b := by
  have hd := congrArg String.data h
  simp [String.data_append] at hd
  exact String.ext hd

/-- Appending the same string on the left is injective. -/
theorem append_left_inj {a b t : String} (h : t ++ a = t ++ b) : a = b := by
  have hd := congrArg String.data h
  simp [String.data_append] at hd
  exact String.ext hd

/-- Distinct account ids give distinct AAD strings (same tenant). -/
theorem mkAAD_ne_of_account_ne {a a2 t : String} (h : a2 ≠ a) :
    mkAAD a2 t ≠ mkAAD a t := by
  intro he
  exact h (append_right_inj (t := ":" ++ t) (by
    simpa [mkAAD, String.append_assoc] using he))

/-- Distinct tenant ids give distinct AAD strings (same account). -/
theorem mkAAD_ne_of_tenant_ne {a t t2 : String} (h : t2 ≠ t) :
    mkAAD a t2 ≠ mkAAD a t := by
  intro he
  exact h (append_left_inj (t := a ++ ":") (by
    simpa [mkAAD, String.append_assoc] using he))

/-- C1: envelope round-trip and AAD binding. With a well-configured master
key, encrypting a Secret under the AAD `accountId:tenantId` and decrypting
under the same AAD returns the Secret exactly; decrypting the same
envelope under an AAD whose account component (or tenant component)
differs fails with an authentication error, yielding no plaintext. -/
theorem envelope_roundtrip_and_aad_binding
    (cfg : Config) (master : List Nat) (hcfg : getMasterKey cfg = .ok master)
    (s : Secret) (a t a2 t2 : String) (salt iv : Nat) :
    encryptJSON cfg s (mkAAD a t) salt iv =
      .ok (sealEnvelope master s (mkAAD a t) salt iv) ∧
    decryptJSON cfg (sealEnvelope master s (mkAAD a t) salt iv) (mkAAD a t) =
      .ok s ∧
    (a2 ≠ a →
      decryptJSON cfg (sealEnvelope master s (mkAAD a t) salt iv) (mkAAD a2 t) =
        .error .authFailure) ∧
    (t2 ≠ t →
      decryptJSON cfg (sealEnvelope master s (mkAAD a t) salt iv) (mkAAD a t2) =
        .error .authFailure) := by
  refine ⟨by simp [encryptJSON, hcfg, Except.map], ?_, ?_, ?_⟩
  · simp [decryptJSON, sealEnvelope, hkdfSubkey, hcfg, Except.map, aesGcmOpen,
      aesGcmSeal]
  · intro hne
    simp [decryptJSON, sealEnvelope, hkdfSubkey, hcfg, Except.map, aesGcmOpen,
      aesGcmSeal, (mkAAD_ne_of_account_ne (t := t) hne).symm]
  · intro hne
    simp [decryptJSON, sealEnvelope, hkdfSubkey, hcfg, Except.map, aesGcmOpen,
      aesGcmSeal, (mkAAD_ne_of_tenant_ne (a := a) hne).symm]

/-- A concrete 32-byte master key configuration used by witnesses. -/
def cfgW : Config := some (List.replicate 32 0)

/-- A concrete Secret used by witnesses. -/
def secretW : Secret :=
  { label := some "Work"
    primaryEmail := "alice@b.co"
    imap :=
      { server := "imap.x", port := 993, username := "alice@b.co"
        password := "p", connection := "SSL/TLS" }
    smtp :=
      { server := "smtp.x", port := 587, username := "alice@b.co"
        password := "p", connection := "STARTTLS" } }

/-- Witness for C1 at a concrete key, secret, ids, salt and iv. -/
theorem envelope_roundtrip_and_aad_binding_witness :
    encryptJSON cfgW secretW (mkAAD "A" "T") 1 2 =
      .ok (sealEnvelope (List.replicate 32 0) secretW (mkAAD "A" "T") 1 2) ∧
    decryptJSON cfgW
        (sealEnvelope (List.replicate 32 0) secretW (mkAAD "A" "T") 1 2)
        (mkAAD "A" "T") = .ok secretW ∧
    decryptJSON cfgW
        (sealEnvelope (List.replicate 32 0) secretW (mkAAD "A" "T") 1 2)
        (mkAAD "B" "T") = .error .authFailure ∧
    decryptJSON cfgW
        (sealEnvelope (List.replicate 32 0) secretW (mkAAD "A" "T") 1 2)
        (mkAAD "A" "U") = .error .authFailure := by
  have h := envelope_roundtrip_and_aad_binding cfgW (List.replicate 32 0)
    rfl secretW "A" "T" "B" "U" 1 2
  exact ⟨h.1, h.2.1, h.2.2.1 (by decide), h.2.2.2 (by decide)⟩

/-- One persisted account record, stored under `mail:acc:{accountId}`
(lines 361-367): ULID id, owning integration (tenant) id, timestamps and
the encrypted Secret. -/
structure AccountRecord where
  id : String
  integrationId : String
  createdAt : String
  updatedAt : String
  enc : Envelope
deriving DecidableEq

/-- Association-list lookup for the string-keyed Redis model. -/
def assocGet {α : Type} (l : List (String × α)) (k : String) : Option α :=
  (l.find? (fun p => p.1 == k)).map (fun p => p.2)

/-- Association-list overwrite (Redis `set`). -/
def assocSet {α : Type} (l : List (String × α)) (k : String) (v : α) :
    List (String × α) :=
  (k, v) :: l.filter (fun p => !(p.1 == k))

/-- Association-list removal (Redis `del`). -/
def assocDel {α : Type} (l : List (String × α)) (k : String) :
    List (String × α) :=
  l.filter (fun p => !(p.1 == k))

/-- In-memory model of the Upstash Redis instance: string keys to account
records, and string keys to string sets. -/
structure Store where
  kv : List (String × AccountRecord)
  sets : List (String × List String)
deriving DecidableEq

/-- Redis `smembers` (missing key reads as the empty set). -/
def smembers (st : Store) (k : String) : List String :=
  (assocGet st.sets k).getD []

/-- Redis `sadd` of a single member. -/
def sadd (st : Store) (k v : String) : Store :=
  let cur := smembers st k
  { st with sets := assocSet st.sets k (if cur.contains v then cur else v :: cur) }

/-- Redis `srem` of a single member. -/
def srem (st : Store) (k v : String) : Store :=
  { st with sets :=
      assocSet st.sets k ((smembers st k).filter (fun x => !(x == v))) }

/-- Redis `set` of an account record. -/
def redisSet (st : Store) (k : String) (v : AccountRecord) : Store :=
  { st with kv := assocSet st.kv k v }

/-- Redis `del` of an account record key. -/
def redisDel (st : Store) (k : String) : Store :=
  { st with kv := assocDel st.kv k }

/-- Embeds `kAccount` (line 122): the record key `mail:acc:{accountId}`. -/
def kAccount (accountId : String) : String := "mail:acc:" ++ accountId

/-- Embeds `kUserIndex` (line 121): the per-tenant index key
`mail:user:{integrationId}:accounts`. -/
def kUserIndex (integrationId : String) : String :=
  "mail:user:" ++ integrationId ++ ":accounts"

/-- Embeds `loadAccount(accountId, mustExist)` (lines 124-128) as the raw
store read; call sites with `mustExist = true` turn `none` into the
"Account not found" error. -/
def loadAccount (st : Store) (accountId : String) : Option AccountRecord :=
  assocGet st.kv (kAccount accountId)

/-- Process-level state relevant to the delete route: the Redis store and
the keys of the process-wide `watchers` Map (line 169). -/
structure ProcState where
  store : Store
  watchers : List String
deriving DecidableEq

/-- Embeds the DELETE `/accounts/:id` handler (lines 601-611): load the
record (missing record is success), `del` the record key, `srem` the id
from the owning tenant's index. The handler never touches the watcher
registry — `stopWatcher` is not called anywhere in it. -/
def deleteRoute (ps : ProcState) (accountId : String) : ProcState :=
  match loadAccount ps.store accountId with
  | none => ps
  | some acc =>
    let st1 := redisDel ps.store (kAccount acc.id)
    let st2 := srem st1 (kUserIndex acc.integrationId) acc.id
    { ps with store := st2 }

/-- Deleting a key makes it unreadable. -/
theorem assocGet_assocDel_self {α : Type} (l : List (String × α)) (k : String) :
    assocGet (assocDel l k) k = none := by
  induction l with
  | nil => rfl
  | cons p rest ih =>
    by_cases h : p.1 == k
    · simpa [assocDel, List.filter_cons, h] using ih
    · simp only [assocDel, List.filter_cons, h] at ih ⊢
      simp only [assocGet, List.find?, h] at ih ⊢
      exact ih

/-- Overwriting a key makes the new value readable. -/
theorem assocGet_assocSet_self {α : Type} (l : List (String × α))
    (k : String) (v : α) : assocGet (assocSet l k v) k = some v := by
  simp [assocGet, assocSet, List.find?]

/-- Reading a key other than the overwritten one is unchanged. -/
theorem assocGet_assocSet_ne {α : Type} (l : List (String × α))
    (k k' : String) (v : α) (h : k' ≠ k) :
    assocGet (assocSet l k v) k' = assocGet l k' := by
  have hb : (k == k') = false := by
    simpa [beq_iff_eq] using fun he => h he.symm
  induction l with
  | nil => simp [assocGet, assocSet, List.find?, hb]
  | cons p rest ih =>
    by_cases hp : p.1 == k
    · have hpk : p.1 = k := by simpa [beq_iff_eq] using hp
      have hp' : (p.1 == k') = false := by
        simpa [beq_iff_eq, hpk] using fun he => h he.symm
      simp only [assocGet, assocSet, List.filter_cons, hp, Bool.not_true,
        List.find?, hb, hp'] at ih ⊢
      simpa [assocGet, assocSet, List.find?, hb, hp'] using ih
    · simp only [assocGet, assocSet, List.filter_cons, hp, Bool.not_false,
        List.find?] at ih ⊢
      by_cases hq : p.1 == k'
      · simp [List.find?, hq, hb]
      · simpa [List.find?, hq, hb] using ih

/-- Reading a key other than the deleted one is unchanged. -/
theorem assocGet_assocDel_ne {α : Type} (l : List (String × α))
    (k k' : String) (h : k' ≠ k) :
    assocGet (assocDel l k) k' = assocGet l k' := by
  induction l with
  | nil => rfl
  | cons p rest ih =>
    by_cases hp : p.1 == k
    · have hpk : p.1 = k := by simpa [beq_iff_eq] using hp
      have hp' : (p.1 == k') = false := by
        simpa [beq_iff_eq, hpk] using fun he => h he.symm
      simpa [assocDel, assocGet, List.filter_cons, hp, List.find?, hp'] using ih
    · by_cases hq : p.1 == k'
      · simp [assocDel, assocGet, List.filter_cons, hp, List.find?, hq]
      · simpa [assocDel, assocGet, List.filter_cons, hp, List.find?, hq]
          using ih

/-- After `srem`, the removed member is no longer in the set. -/
theorem srem_not_mem (st : Store) (k v : String) :
    v ∉ smembers (srem st k v) k := by
  intro hv
  simp only [smembers, srem, assocGet_assocSet_self, Option.getD_some] at hv
  rcases List.mem_filter.mp hv with ⟨_, hne⟩
  simp at hne

/-- C2 (amended): after DELETE on an existing, consistently keyed account,
the record under `mail:acc:{id}` is absent and the id has been removed
from the owning tenant's index, but the watcher registry is untouched:
the delete handler never stops a running Watcher. -/
theorem delete_removes_record_and_index_but_not_watcher
    (ps : ProcState) (accountId : String) (acc : AccountRecord)
    (h : loadAccount ps.store accountId = some acc)
    (hid : acc.id = accountId) :
    loadAccount (deleteRoute ps accountId).store accountId = none ∧
    accountId ∉
      smembers (deleteRoute ps accountId).store (kUserIndex acc.integrationId) ∧
    (deleteRoute ps accountId).watchers = ps.watchers := by
  have hd : deleteRoute ps accountId =
      { ps with store := srem (redisDel ps.store (kAccount acc.id)) (kUserIndex acc.integrationId) acc.id } := by
    unfold deleteRoute
    rw [h]
  refine ⟨?_, ?_, ?_⟩
  · rw [hd, hid]
    simpa [loadAccount, srem, redisDel] using
      assocGet_assocDel_self ps.store.kv (kAccount accountId)
  · rw [hd, ← hid]
    exact srem_not_mem _ _ _
  · rw [hd]

/-- A concrete account record used by witnesses and counterexamples. -/
def recW : AccountRecord :=
  { id := "A"
    integrationId := "T"
    createdAt := "2024-01-01T00:00:00.000Z"
    updatedAt := "2024-01-01T00:00:00.000Z"
    enc := sealEnvelope (List.replicate 32 0) secretW (mkAAD "A" "T") 1 2 }

/-- A concrete process state with account "A" stored, indexed under tenant
"T", and a running Watcher for "A". -/
def psW : ProcState :=
  { store :=
      { kv := [(kAccount "A", recW)]
        sets := [(kUserIndex "T", ["A"])] }
    watchers := ["A"] }

/-- C2 counterexample: deleting account "A" (which exists, with a running
Watcher) leaves the Watcher for "A" in the process-wide registry, so the
claim that no Watcher for the accountId exists after DELETE is false. -/
theorem delete_cascade_counterexample :
    loadAccount psW.store "A" = some recW ∧
    "A" ∈ psW.watchers ∧
    loadAccount (deleteRoute psW "A").store "A" = none ∧
    "A" ∉ smembers (deleteRoute psW "A").store (kUserIndex "T") ∧
    "A" ∈ (deleteRoute psW "A").watchers := by
  refine ⟨rfl, by decide, ?_, ?_, ?_⟩ <;> decide

/-- Witness for the amended C2 theorem at the concrete state `psW`. -/
theorem delete_removes_record_and_index_but_not_watcher_witness :
    loadAccount (deleteRoute psW "A").store "A" = none ∧
    "A" ∉ smembers (deleteRoute psW "A").store (kUserIndex recW.integrationId) ∧
    (deleteRoute psW "A").watchers = psW.watchers :=
  delete_removes_record_and_index_but_not_watcher psW "A" recW rfl rfl

/-- JavaScript `String.prototype.split(sep)` on a single-character
separator, over the character list of the string: splits at every
occurrence, keeping empty groups. -/
def splitOnChar (sep : Char) : List Char → List (List Char)
  | [] => [[]]
  | c :: rest =>
    if c = sep then [] :: splitOnChar sep rest
    else
      match splitOnChar sep rest with
      | [] => [[c]]
      | g :: gs => (c :: g) :: gs

/-- The characters of the JavaScript string "undefined": indexing a JS
string out of range yields `undefined`, which string concatenation
coerces to this text. -/
def undefinedChars : List Char :=
  ['u', 'n', 'd', 'e', 'f', 'i', 'n', 'e', 'd']

/-- JavaScript `name[i]` followed by string concatenation: one character
when in range, the text "undefined" otherwise. -/
def jsCharAt (l : List Char) (i : Nat) : List Char :=
  match l[i]? with
  | some c => [c]
  | none => undefinedChars

/-- Embeds `maskEmail(email)` (mailboxRouter.js lines 113-119) over the
characters of the email: split on "@"; with no (or an empty falsy) domain
return "***"; local parts of length at most 2 become `first + "*"`;
longer local parts become `first + "*".repeat(max(1, n-2)) + last`;
re-attach `@domain`. -/
def maskEmailL (email : List Char) : List Char :=
  match splitOnChar '@' email with
  | name :: domain :: _ =>
    if domain.isEmpty then ['*', '*', '*']
    else
      let n := name.length
      let masked :=
        if n ≤ 2 then jsCharAt name 0 ++ ['*']
        else jsCharAt name 0 ++ List.replicate (max 1 (n - 2)) '*' ++
          jsCharAt name (n - 1)
      masked ++ '@' :: domain
  | _ => ['*', '*', '*']

/-- String-level wrapper of the masking function. -/
def maskEmailS (s : String) : String := String.mk (maskEmailL s.data)

/-- Splitting a list free of the separator yields one group. -/
theorem splitOnChar_of_not_mem (sep : Char) (l : List Char) (h : sep ∉ l) :
    splitOnChar sep l = [l] := by
  induction l with
  | nil => rfl
  | cons c rest ih =>
    have hc : ¬ c = sep := fun he => h (he ▸ List.mem_cons_self c rest)
    have hr := ih (fun hm => h (List.mem_cons_of_mem c hm))
    simp [splitOnChar, hc, hr]

/-- Splitting `name ++ sep :: rest` with `sep ∉ name` peels off `name`. -/
theorem splitOnChar_append (sep : Char) (name rest : List Char)
    (h : sep ∉ name) :
    splitOnChar sep (name ++ sep :: rest) = name :: splitOnChar sep rest := by
  induction name with
  | nil => simp [splitOnChar]
  | cons c tl ih =>
    have hc : ¬ c = sep := fun he => h (he ▸ List.mem_cons_self c tl)
    have hr := ih (fun hm => h (List.mem_cons_of_mem c hm))
    simp [splitOnChar, hc, hr]

/-- C5 (amended): for a well-formed email `local@domain` (local part
nonempty, neither part containing "@"), the mask keeps the domain
verbatim and always contains an asterisk, but the local part is masked as
`first + "*".repeat(n-2) + last` only when its length n is at least 3
(covered by the `c :: mid ++ [d]` shape with `mid ≠ []`); when n = 2 the
mask is `first + "*"` (the last character is dropped, not shown), and
when n = 1 — the boundary input "a@b.co" — the mask is likewise
`first + "*"`, i.e. "a*@b.co", not the unmasked "a@b.co". -/
theorem maskEmail_shape
    (c d : Char) (mid domain : List Char)
    (hname : '@' ∉ c :: mid ++ [d]) (hc : c ≠ '@')
    (hdom : '@' ∉ domain) (hdomne : domain ≠ []) :
    maskEmailL ((c :: mid ++ [d]) ++ '@' :: domain) =
      (if mid = [] then [c, '*']
       else [c] ++ List.replicate mid.length '*' ++ [d]) ++ '@' :: domain ∧
    maskEmailL ([c] ++ '@' :: domain) = [c, '*'] ++ '@' :: domain ∧
    '*' ∈ maskEmailL ((c :: mid ++ [d]) ++ '@' :: domain) ∧
    '*' ∈ maskEmailL ([c] ++ '@' :: domain) := by
  have hde : domain.isEmpty = false := by
    cases domain with
    | nil => cases hdomne rfl
    | cons x xs => rfl
  have hsplit1 :
      splitOnChar '@' ((c :: mid ++ [d]) ++ '@' :: domain) =
        (c :: mid ++ [d]) :: [domain] := by
    rw [splitOnChar_append '@' (c :: mid ++ [d]) domain hname,
      splitOnChar_of_not_mem '@' domain hdom]
  have hsplit2 : splitOnChar '@' ([c] ++ '@' :: domain) = [c] :: [domain] := by
    rw [splitOnChar_append '@' [c] domain
        (by simp only [List.mem_singleton]; exact fun he => hc he.symm),
      splitOnChar_of_not_mem '@' domain hdom]
  have hmain :
      maskEmailL ((c :: mid ++ [d]) ++ '@' :: domain) =
        (if mid = [] then [c, '*']
         else [c] ++ List.replicate mid.length '*' ++ [d]) ++ '@' :: domain := by
    rw [maskEmailL, hsplit1]
    cases mid with
    | nil => simp [hde, jsCharAt]
    | cons m ms =>
      have hlen : (c :: (m :: ms) ++ [d]).length = ms.length + 3 := by
        simp
      have hn : ¬ (c :: (m :: ms) ++ [d]).length ≤ 2 := by
        rw [hlen]; omega
      have hmax : max 1 ((c :: (m :: ms) ++ [d]).length - 2) = ms.length + 1 := by
        rw [hlen]; omega
      have hlast :
          jsCharAt (c :: (m :: ms) ++ [d]) ((c :: (m :: ms) ++ [d]).length - 1) =
            [d] := by
        have h1 : (c :: (m :: ms) ++ [d]).length - 1 = ((m :: ms) ++ [d]).length := by
          simp [List.length_append]
        rw [jsCharAt, h1]
        have h2 : (c :: (m :: ms) ++ [d])[((m :: ms) ++ [d]).length]? =
            ((m :: ms) ++ [d])[(m :: ms).length]? := by
          simp [List.length_append]
        rw [h2, List.getElem?_concat_length]
      simp only [hde, Bool.false_eq_true, if_false, hn, if_false, hmax, hlast]
      simp [jsCharAt, List.replicate]
  have hone :
      maskEmailL ([c] ++ '@' :: domain) = [c, '*'] ++ '@' :: domain := by
    rw [maskEmailL, hsplit2]
    simp [hde, jsCharAt]
  refine ⟨hmain, hone, ?_, ?_⟩
  · rw [hmain]
    cases mid with
    | nil => simp
    | cons m ms => simp
  · rw [hone]
    simp

/-- C5 counterexample: the boundary input "a@b.co" (local part length 1)
is masked to "a*@b.co", not left as the claimed unmasked "a@b.co". -/
theorem maskEmail_boundary_counterexample :
    maskEmailS "a@b.co" = "a*@b.co" ∧ maskEmailS "a@b.co" ≠ "a@b.co" := by
  constructor <;> decide

/-- Witness for the amended C5 theorem on the email "john@x.co". -/
theorem maskEmail_shape_witness :
    maskEmailL (('j' :: ['o', 'h'] ++ ['n']) ++ '@' :: ['x', '.', 'c', 'o']) =
      (if (['o', 'h'] : List Char) = [] then ['j', '*']
       else ['j'] ++ List.replicate (['o', 'h'] : List Char).length '*' ++ ['n']) ++
        '@' :: ['x', '.', 'c', 'o'] ∧
    maskEmailL (['j'] ++ '@' :: ['x', '.', 'c', 'o']) =
      ['j', '*'] ++ '@' :: ['x', '.', 'c', 'o'] ∧
    '*' ∈ maskEmailL (('j' :: ['o', 'h'] ++ ['n']) ++ '@' :: ['x', '.', 'c', 'o']) ∧
    '*' ∈ maskEmailL (['j'] ++ '@' :: ['x', '.', 'c', 'o']) :=
  maskEmail_shape 'j' 'n' ['o', 'h'] ['x', '.', 'c', 'o']
    (by decide) (by decide) (by decide) (by decide)

/-- Embeds the PUT `/accounts/:id` handler (lines 549-566): load the
record (404 when missing), re-encrypt the validated new Secret under the
existing AAD `acc.id:acc.integrationId` with fresh salt and iv, and write
back the record with only `enc` and `updatedAt` replaced
(`{...acc, enc, updatedAt}`). -/
def updateRoute (cfg : Config) (st : Store) (accountId : String)
    (body : Secret) (salt iv : Nat) (now : String) : Except Err Store :=
  match loadAccount st accountId with
  | none => .error .accountNotFound
  | some acc =>
    (encryptJSON cfg body (mkAAD acc.id acc.integrationId) salt iv).map
      (fun enc =>
        redisSet st (kAccount acc.id) { acc with enc := enc, updatedAt := now })

/-- C8: Update re-encrypts under the existing AAD with the fresh salt and
iv and changes only the stored envelope and `updatedAt`: the written
record is literally the old record with `enc` and `updatedAt` replaced
(so `id`, `integrationId` and `createdAt` are unchanged), the new
envelope carries the AAD `accountId:tenantId` and, the fresh randomness
being distinct from the old, its salt and iv differ from the previous
envelope's; every other store key reads as before. -/
theorem update_changes_only_envelope_and_updatedAt
    (cfg : Config) (master : List Nat) (hcfg : getMasterKey cfg = .ok master)
    (st : Store) (accountId : String) (acc : AccountRecord)
    (h : loadAccount st accountId = some acc) (hid : acc.id = accountId)
    (body : Secret) (salt iv : Nat) (now : String)
    (hsalt : salt ≠ acc.enc.salt) (hiv : iv ≠ acc.enc.iv) :
    updateRoute cfg st accountId body salt iv now =
      .ok (redisSet st (kAccount accountId)
        { acc with
            enc := sealEnvelope master body (mkAAD accountId acc.integrationId) salt iv
            updatedAt := now }) ∧
    (sealEnvelope master body (mkAAD accountId acc.integrationId) salt iv).box.aad =
      mkAAD accountId acc.integrationId ∧
    (sealEnvelope master body (mkAAD accountId acc.integrationId) salt iv).salt ≠
      acc.enc.salt ∧
    (sealEnvelope master body (mkAAD accountId acc.integrationId) salt iv).iv ≠
      acc.enc.iv ∧
    (∀ k, k ≠ kAccount accountId →
      assocGet (redisSet st (kAccount accountId)
        { acc with
            enc := sealEnvelope master body (mkAAD accountId acc.integrationId) salt iv
            updatedAt := now }).kv k = assocGet st.kv k) ∧
    (redisSet st (kAccount accountId)
      { acc with
          enc := sealEnvelope master body (mkAAD accountId acc.integrationId) salt iv
          updatedAt := now }).sets = st.sets := by
  subst hid
  refine ⟨?_, rfl, hsalt, hiv, ?_, rfl⟩
  · unfold updateRoute
    rw [h]
    simp [encryptJSON, hcfg, Except.map]
  · intro k hk
    exact assocGet_assocSet_ne st.kv (kAccount acc.id) k _ hk

/-- A second concrete Secret (rotated credentials) used by witnesses. -/
def secretW2 : Secret :=
  { label := some "Work"
    primaryEmail := "alice@b.co"
    imap :=
      { server := "imap.x", port := 993, username := "alice@b.co"
        password := "p2", connection := "SSL/TLS" }
    smtp :=
      { server := "smtp.x", port := 587, username := "alice@b.co"
        password := "p2", connection := "STARTTLS" } }

/-- Witness for C8 at the concrete store `psW.store`. -/
theorem update_changes_only_envelope_and_updatedAt_witness :
    updateRoute cfgW psW.store "A" secretW2 3 4 "2024-02-02T00:00:00.000Z" =
      .ok (redisSet psW.store (kAccount "A")
        { recW with
            enc := sealEnvelope (List.replicate 32 0) secretW2 (mkAAD "A" recW.integrationId) 3 4
            updatedAt := "2024-02-02T00:00:00.000Z" }) ∧
    (sealEnvelope (List.replicate 32 0) secretW2 (mkAAD "A" recW.integrationId) 3 4).box.aad =
      mkAAD "A" recW.integrationId ∧
    (sealEnvelope (List.replicate 32 0) secretW2 (mkAAD "A" recW.integrationId) 3 4).salt ≠
      recW.enc.salt ∧
    (sealEnvelope (List.replicate 32 0) secretW2 (mkAAD "A" recW.integrationId) 3 4).iv ≠
      recW.enc.iv ∧
    (∀ k, k ≠ kAccount "A" →
      assocGet (redisSet psW.store (kAccount "A")
        { recW with
            enc := sealEnvelope (List.replicate 32 0) secretW2 (mkAAD "A" recW.integrationId) 3 4
            updatedAt := "2024-02-02T00:00:00.000Z" }).kv k =
        assocGet psW.store.kv k) ∧
    (redisSet psW.store (kAccount "A")
      { recW with
          enc := sealEnvelope (List.replicate 32 0) secretW2 (mkAAD "A" recW.integrationId) 3 4
          updatedAt := "2024-02-02T00:00:00.000Z" }).sets = psW.store.sets :=
  update_changes_only_envelope_and_updatedAt cfgW (List.replicate 32 0) rfl
    psW.store "A" recW rfl rfl secretW2 3 4 "2024-02-02T00:00:00.000Z"
    (by decide) (by decide)

/-- One attachment of the send request body (`SendSchema`). -/
structure Attachment where
  filename : String
  contentBase64 : String
  contentType : Option String
deriving DecidableEq

/-- The validated send request body (`SendSchema`, lines 94-110); the JS
`to` field is called `toAddrs` because `to` is a Lean keyword. -/
structure SendBody where
  toAddrs : List String
  cc : Option (List String)
  bcc : Option (List String)
  subject : String
  text : Option String
  html : Option String
  attachments : Option (List Attachment)
deriving DecidableEq

/-- One attachment as handed to `transporter.sendMail`; the base64 decode
of the content bytes is idealized as carrying the base64 text along. -/
structure OutAttachment where
  filename : String
  content : String
  contentType : Option String
deriving DecidableEq

/-- The message object handed to `transporter.sendMail` (lines 703-716);
the JS `from` and `to` fields are called `fromAddr` and `toAddrs` because
`from` and `to` are Lean keywords. -/
structure MailMessage where
  fromAddr : String
  toAddrs : List String
  cc : Option (List String)
  bcc : Option (List String)
  subject : String
  text : Option String
  html : Option String
  attachments : List OutAttachment
deriving DecidableEq

/-- Embeds the POST `/accounts/:id/send` handler (lines 696-722) up to the
message it hands to the SMTP transport: load the record, decrypt the
Secret under the record's AAD, and build the outbound message with
`from: secret.smtp.username`. -/
def sendRoute (cfg : Config) (st : Store) (accountId : String)
    (msg : SendBody) : Except Err MailMessage :=
  match loadAccount st accountId with
  | none => .error .accountNotFound
  | some acc =>
    (decryptJSON cfg acc.enc (mkAAD acc.id acc.integrationId)).map
      (fun secret =>
        { fromAddr := secret.smtp.username
          toAddrs := msg.toAddrs
          cc := msg.cc
          bcc := msg.bcc
          subject := msg.subject
          text := msg.text
          html := msg.html
          attachments := (msg.attachments.getD []).map
            (fun a =>
              { filename := a.filename
                content := a.contentBase64
                contentType := a.contentType }) })

/-- C9: whenever a send succeeds, the From address of the outbound
message is exactly the decrypted Secret's `smtp.username` — for every
request body and every Secret, in particular regardless of
`primaryEmail`. -/
theorem send_from_is_smtp_username
    (cfg : Config) (st : Store) (accountId : String) (msg : SendBody)
    (m : MailMessage) (h : sendRoute cfg st accountId msg = .ok m) :
    ∃ acc secret, loadAccount st accountId = some acc ∧
      decryptJSON cfg acc.enc (mkAAD acc.id acc.integrationId) = .ok secret ∧
      m.fromAddr = secret.smtp.username := by
  unfold sendRoute at h
  split at h
  next => exact absurd h (by simp)
  next acc heq =>
    cases hdec : decryptJSON cfg acc.enc (mkAAD acc.id acc.integrationId) with
    | error e => rw [hdec] at h; exact absurd h (by simp [Except.map])
    | ok secret =>
      rw [hdec] at h
      refine ⟨acc, secret, heq, hdec, ?_⟩
      simp only [Except.map, Except.ok.injEq] at h
      rw [← h]

/-- A concrete send request body used by witnesses. -/
def msgW : SendBody :=
  { toAddrs := ["bob@c.co"]
    cc := none
    bcc := none
    subject := "hi"
    text := some "hello"
    html := none
    attachments := none }

/-- Witness for C9 at the concrete store `psW.store` and body `msgW`;
note the stored Secret's `primaryEmail` is also "alice@b.co", but the
From address is taken from `smtp.username`. -/
theorem send_from_is_smtp_username_witness :
    ∃ acc secret, loadAccount psW.store "A" = some acc ∧
      decryptJSON cfgW acc.enc (mkAAD acc.id acc.integrationId) = .ok secret ∧
      ({ fromAddr := secretW.smtp.username
         toAddrs := msgW.toAddrs
         cc := msgW.cc
         bcc := msgW.bcc
         subject := msgW.subject
         text := msgW.text
         html := msgW.html
         attachments := [] } : MailMessage).fromAddr = secret.smtp.username :=
  send_from_is_smtp_username cfgW psW.store "A" msgW _ rfl

/-- One entry of the GET `/accounts` response (lines 422-429). -/
structure AccountSummary where
  id : String
  integrationId : String
  label : Option String
  primaryEmailMasked : String
  createdAt : String
  updatedAt : String
deriving DecidableEq

/-- JavaScript `secret.label || null`: an absent or empty (falsy) label
reads as null. -/
def optLabel (label : Option String) : Option String :=
  match label with
  | some l => if l = "" then none else some l
  | none => none

/-- The summary object pushed for one record (lines 422-429). -/
def summarize (rec : AccountRecord) (secret : Secret) : AccountSummary :=
  { id := rec.id
    integrationId := rec.integrationId
    label := optLabel secret.label
    primaryEmailMasked := maskEmailS secret.primaryEmail
    createdAt := rec.createdAt
    updatedAt := rec.updatedAt }

/-- Embeds the loop body of the GET `/accounts` handler (lines 418-430):
for each id of the tenant index, read `mail:acc:{id}` with
`mustExist = false`, silently skip a missing record (`if (!rec) continue`),
decrypt the rest (a decryption failure aborts the whole request), and
collect the summaries in index order. -/
def listAccum (cfg : Config) (st : Store) :
    List String → Except Err (List AccountSummary)
  | [] => .ok []
  | id :: rest =>
    match assocGet st.kv (kAccount id) with
    | none => listAccum cfg st rest
    | some rec =>
      match decryptJSON cfg rec.enc (mkAAD rec.id rec.integrationId) with
      | .error e => .error e
      | .ok secret =>
        match listAccum cfg st rest with
        | .error e => .error e
        | .ok out => .ok (summarize rec secret :: out)

/-- Embeds the GET `/accounts` handler (lines 412-435): an empty (falsy)
integrationId is a 400; otherwise the tenant index is read and each
member processed by `listAccum`. -/
def listRoute (cfg : Config) (st : Store) (integrationId : String) :
    Except Err (List AccountSummary) :=
  if integrationId = "" then .error .validationError
  else listAccum cfg st (smembers st (kUserIndex integrationId))

/-- Decidable health of one index entry: either the record is missing
(dangling entry), or it is keyed consistently and decrypts. -/
def recOkAt (cfg : Config) (st : Store) (id : String) : Bool :=
  match assocGet st.kv (kAccount id) with
  | none => true
  | some rec =>
    (rec.id == id) &&
      (decryptJSON cfg rec.enc (mkAAD rec.id rec.integrationId)).isOk

/-- An `Except` that `isOk` is an `ok`. -/
theorem isOk_exists {e : Except Err Secret} (h : e.isOk = true) :
    ∃ s, e = .ok s := by
  cases e with
  | ok s => exact ⟨s, rfl⟩
  | error err => simp [Except.isOk, Except.toBool] at h

/-- Accumulating over any id list whose present records are healthy
succeeds, and yields exactly one summary per index member whose record
exists, in index order. -/
theorem listAccum_ok (cfg : Config) (st : Store) :
    ∀ ids : List String, (∀ id ∈ ids, recOkAt cfg st id = true) →
    ∃ l, listAccum cfg st ids = .ok l ∧
      l.map (fun s => s.id) =
        ids.filter (fun id => (assocGet st.kv (kAccount id)).isSome) := by
  intro ids
  induction ids with
  | nil => exact fun _ => ⟨[], rfl, rfl⟩
  | cons id rest ih =>
    intro h
    obtain ⟨l, hl, hmap⟩ := ih (fun i hi => h i (List.mem_cons_of_mem id hi))
    have hid := h id (List.mem_cons_self id rest)
    cases hget : assocGet st.kv (kAccount id) with
    | none =>
      refine ⟨l, ?_, ?_⟩
      · simpa [listAccum, hget] using hl
      · simpa [List.filter_cons, hget] using hmap
    | some rec =>
      rw [recOkAt, hget, Bool.and_eq_true, beq_iff_eq] at hid
      obtain ⟨hrecid, hok⟩ := hid
      obtain ⟨secret, hdec⟩ := isOk_exists hok
      refine ⟨summarize rec secret :: l, ?_, ?_⟩
      · simp [listAccum, hget, hdec, hl]
      · simp [List.filter_cons, hget, summarize, hrecid, hmap]

/-- C10: listing a tenant skips dangling index entries silently — with a
non-empty tenant id and every existing record healthy, List succeeds and
returns summaries exactly for the index members whose record key is
present in the store (a dangling entry never fails the request). -/
theorem list_skips_dangling_index_entries
    (cfg : Config) (st : Store) (integrationId : String)
    (hne : integrationId ≠ "")
    (h : ∀ id ∈ smembers st (kUserIndex integrationId),
      recOkAt cfg st id = true) :
    ∃ l, listRoute cfg st integrationId = .ok l ∧
      l.map (fun s => s.id) =
        (smembers st (kUserIndex integrationId)).filter
          (fun id => (assocGet st.kv (kAccount id)).isSome) := by
  have hacc := listAccum_ok cfg st (smembers st (kUserIndex integrationId)) h
  simpa [listRoute, hne] using hacc

/-- A concrete store whose tenant index holds the existing account "A"
and the dangling id "B" (no record under `mail:acc:B`). -/
def stDangling : Store :=
  { kv := [(kAccount "A", recW)]
    sets := [(kUserIndex "T", ["A", "B"])] }

/-- Witness for C10 on `stDangling`: the dangling entry "B" is skipped
and exactly "A" is listed. -/
theorem list_skips_dangling_index_entries_witness :
    ∃ l, listRoute cfgW stDangling "T" = .ok l ∧
      l.map (fun s => s.id) =
        (smembers stDangling (kUserIndex "T")).filter
          (fun id => (assocGet stDangling.kv (kAccount id)).isSome) :=
  list_skips_dangling_index_entries cfgW stDangling "T" (by decide) (by decide)

/-- In-flight state of one Watcher's new-mail discovery (lines 239-273):
the last seen UID and the uids of the `EmailReceived` events broadcast so
far, in publication order. -/
structure WatchSt where
  lastUid : Nat
  published : List Nat
deriving DecidableEq

/-- One iteration of the fetch loop body (lines 257-268): raise `lastUid`
to the message's uid (`Math.max`) and broadcast one `EmailReceived`
carrying that uid. -/
def publishStep (st : WatchSt) (uid : Nat) : WatchSt :=
  { lastUid := max st.lastUid uid, published := st.published ++ [uid] }

/-- Embeds one "exists" notification (lines 246-273): fetch the UID range
`(lastUid+1):*` — the inbox messages whose uid is at least `lastUid+1`,
yielded by the server in mailbox order, i.e. ascending uid order — and
run the loop body on each. -/
def onExists (mailbox : List Nat) (st : WatchSt) : WatchSt :=
  (mailbox.filter (fun u => st.lastUid + 1 ≤ u)).foldl publishStep st

/-- Embeds the select-time baseline (lines 243-244):
`w.lastUid = Math.max(0, (status.uidNext || 1) - 1)`, which in Nat
arithmetic is `uidNext - 1`. -/
def watchStart (uidNext : Nat) : WatchSt :=
  { lastUid := uidNext - 1, published := [] }

/-- A scripted run: select the inbox with the given UIDNEXT, then process
one "exists" notification per scripted inbox snapshot. -/
def runWatcher (uidNext : Nat) (script : List (List Nat)) : WatchSt :=
  script.foldl (fun st mb => onExists mb st) (watchStart uidNext)

/-- Invariant tying the baseline, the published uids and `lastUid`. -/
def WatchInv (base : Nat) (st : WatchSt) : Prop :=
  st.published.Pairwise (· < ·) ∧
  (∀ u ∈ st.published, base < u ∧ u ≤ st.lastUid) ∧
  base ≤ st.lastUid

/-- Folding the loop body over a strictly ascending batch of uids that
all exceed `lastUid` preserves the invariant. -/
theorem foldl_publishStep_inv :
    ∀ (batch : List Nat) (st : WatchSt) (base : Nat), WatchInv base st →
      batch.Pairwise (· < ·) → (∀ u ∈ batch, st.lastUid < u) →
      WatchInv base (batch.foldl publishStep st) := by
  intro batch
  induction batch with
  | nil => intro st base hinv _ _; exact hinv
  | cons u us ih =>
    intro st base hinv hsor hgt
    obtain ⟨hpair, hmem, hbase⟩ := hinv
    have hu : st.lastUid < u := hgt u (List.mem_cons_self u us)
    apply ih (publishStep st u) base
    · refine ⟨?_, ?_, ?_⟩
      · rw [publishStep, List.pairwise_append]
        refine ⟨hpair, List.pairwise_singleton _ _, ?_⟩
        intro a ha b hb
        rw [List.mem_singleton] at hb
        subst hb
        exact lt_of_le_of_lt (hmem a ha).2 hu
      · intro v hv
        rw [publishStep, List.mem_append, List.mem_singleton] at hv
        cases hv with
        | inl hv =>
          exact ⟨(hmem v hv).1, le_trans (hmem v hv).2 (le_max_left _ _)⟩
        | inr hv =>
          subst hv
          exact ⟨lt_of_le_of_lt hbase hu, le_max_right _ _⟩
      · exact le_trans hbase (le_max_left _ _)
    · exact hsor.of_cons
    · intro v hv
      have h1 : u < v := (List.pairwise_cons.mp hsor).1 v hv
      have h2 : st.lastUid < v := hgt v (List.mem_cons_of_mem u hv)
      simpa [publishStep] using max_lt h2 h1

/-- One "exists" notification preserves the invariant whenever the inbox
snapshot is in ascending uid order. -/
theorem onExists_inv (mb : List Nat) (st : WatchSt) (base : Nat)
    (hinv : WatchInv base st) (hmb : mb.Pairwise (· < ·)) :
    WatchInv base (onExists mb st) := by
  apply foldl_publishStep_inv _ st base hinv
  · exact hmb.sublist (List.filter_sublist mb)
  · intro u hu
    have := (List.mem_filter.mp hu).2
    simp only [decide_eq_true_eq] at this
    omega

/-- A whole scripted run preserves the invariant. -/
theorem runWatcher_inv_aux :
    ∀ (script : List (List Nat)) (st : WatchSt) (base : Nat),
      WatchInv base st → (∀ mb ∈ script, mb.Pairwise (· < ·)) →
      WatchInv base (script.foldl (fun s mb => onExists mb s) st) := by
  intro script
  induction script with
  | nil => intro st base hinv _; exact hinv
  | cons mb rest ih =>
    intro st base hinv hs
    exact ih (onExists mb st) base
      (onExists_inv mb st base hinv (hs mb (List.mem_cons_self mb rest)))
      (fun m hm => hs m (List.mem_cons_of_mem mb hm))

/-- C4: across any scripted sequence of "exists" notifications over
ascending-uid inbox snapshots, the published `EmailReceived` uids are
strictly increasing (hence no uid is published twice) and every
published uid exceeds the baseline `UIDNEXT - 1` recorded at select
time. -/
theorem uid_monotonic (uidNext : Nat) (script : List (List Nat))
    (hs : ∀ mb ∈ script, mb.Pairwise (· < ·)) :
    (runWatcher uidNext script).published.Pairwise (· < ·) ∧
    (runWatcher uidNext script).published.Nodup ∧
    ∀ u ∈ (runWatcher uidNext script).published, uidNext - 1 < u := by
  have hinv : WatchInv (uidNext - 1) (runWatcher uidNext script) := by
    rw [runWatcher]
    apply runWatcher_inv_aux script (watchStart uidNext) (uidNext - 1) ?_ hs
    unfold WatchInv
    refine ⟨List.Pairwise.nil, ?_, le_refl _⟩
    intro u hu
    simp [watchStart] at hu
  exact ⟨hinv.1, hinv.1.imp (fun hab => Nat.ne_of_lt hab),
    fun u hu => (hinv.2.1 u hu).1⟩

/-- Witness for C4: baseline UIDNEXT = 4 (so lastUid starts at 3), then
two "exists" notifications over the snapshots [3, 5] and [4, 6, 7]. -/
theorem uid_monotonic_witness :
    (runWatcher 4 [[3, 5], [4, 6, 7]]).published.Pairwise (· < ·) ∧
    (runWatcher 4 [[3, 5], [4, 6, 7]]).published.Nodup ∧
    ∀ u ∈ (runWatcher 4 [[3, 5], [4, 6, 7]]).published, 4 - 1 < u :=
  uid_monotonic 4 [[3, 5], [4, 6, 7]] (by decide)

/-- Action armed on a Watcher's single pending idle timer. -/
inductive TimerAction where
  | stopW       -- setTimeout of stopWatcher(accountId) in 60 s
  | keepAlive   -- setTimeout of keepAliveWatcher(w) in 5 minutes
deriving DecidableEq

/-- In-memory Watcher state relevant to the idle-grace lifecycle: the SSE
subscriber handles and the pending idle timer as an absolute fire time
(in seconds) and an action. -/
structure WatcherSt where
  sseClients : List Nat
  idleTimer : Option (Nat × TimerAction)
deriving DecidableEq

/-- Embeds `keepAliveWatcher(w)` (lines 205-212): clear any pending
timer; with an empty subscriber set arm `stopWatcher` in 60 s, otherwise
re-arm a 5-minute self check. -/
def keepAliveWatcher (now : Nat) (w : WatcherSt) : WatcherSt :=
  if w.sseClients.isEmpty then
    { w with idleTimer := some (now + 60, TimerAction.stopW) }
  else
    { w with idleTimer := some (now + 300, TimerAction.keepAlive) }

/-- The registry slot for one account (`watchers.get(accountId)`). The
`ensureWatcher` branch that rebuilds a Watcher whose client died is not
needed by the claims and is not modelled: a registered Watcher here
always has a live IMAP client. -/
def Registry : Type := Option WatcherSt

/-- Embeds the attach path of the stream endpoint (lines 1277-1298):
`ensureWatcher` returns an existing live Watcher unchanged — in
particular it does not touch the idle timer — and the handler then adds
the response handle to `sseClients`. A fresh Watcher starts with just
this subscriber and is armed by `keepAliveWatcher` when its connect
completes (line 275). -/
def attachStream (now : Nat) (reg : Registry) (h : Nat) : Registry :=
  match reg with
  | some w => some { w with sseClients := w.sseClients ++ [h] }
  | none => some (keepAliveWatcher now { sseClients := [h], idleTimer := none })

/-- Embeds a subscriber disconnect (lines 1306-1315): remove the handle
from `sseClients`, then run `keepAliveWatcher`. -/
def closeStream (now : Nat) (reg : Registry) (h : Nat) : Registry :=
  match reg with
  | some w =>
    some (keepAliveWatcher now
      { w with sseClients := w.sseClients.filter (fun x => !(x == h)) })
  | none => none

/-- The pending idle timer fires at its scheduled time: a `stopW` timer
runs `stopWatcher` (lines 182-203), which logs the client out, clears
state and deletes the registry entry unconditionally — it never checks
`sseClients`; a `keepAlive` timer re-runs `keepAliveWatcher`. -/
def fireIdleTimer (reg : Registry) : Registry :=
  match reg with
  | some w =>
    match w.idleTimer with
    | some (_, TimerAction.stopW) => none
    | some (t, TimerAction.keepAlive) => some (keepAliveWatcher t w)
    | none => some w
  | none => none

/-- C3 (amended): when the subscriber set becomes empty, tear-down is
armed for 60 s later; but attaching a new subscriber to a live Watcher
leaves the pending timer exactly as it was — the tear-down is NOT
cancelled — and when the armed `stopWatcher` timer fires the Watcher is
removed from the registry regardless of its current subscribers. -/
theorem idle_grace_armed_and_not_cancelled_by_attach
    (now t : Nat) (w : WatcherSt) (h : Nat) :
    (w.sseClients = [] →
      (keepAliveWatcher now w).idleTimer = some (now + 60, TimerAction.stopW)) ∧
    attachStream now (some w) h =
      some { w with sseClients := w.sseClients ++ [h] } ∧
    (w.idleTimer = some (t, TimerAction.stopW) →
      fireIdleTimer (some w) = none) := by
  refine ⟨?_, rfl, ?_⟩
  · intro he
    simp [keepAliveWatcher, he]
  · intro ht
    simp [fireIdleTimer, ht]

/-- C3 counterexample trace: the only subscriber (handle 5) disconnects
at t = 0, arming tear-down at t = 60; a new subscriber (handle 7)
attaches at t = 30 < 60, yet the pending timer survives the attach; the
timer fires at t = 60 and removes the Watcher even though a subscriber
is attached — so an attach inside the idle-grace window does not cancel
the tear-down and the Watcher does not survive. -/
theorem idle_grace_attach_counterexample :
    closeStream 0 (some { sseClients := [5], idleTimer := none }) 5 =
      some { sseClients := [], idleTimer := some (60, TimerAction.stopW) } ∧
    attachStream 30
        (some { sseClients := [], idleTimer := some (60, TimerAction.stopW) }) 7 =
      some { sseClients := [7], idleTimer := some (60, TimerAction.stopW) } ∧
    fireIdleTimer
        (some { sseClients := [7], idleTimer := some (60, TimerAction.stopW) }) =
      none := by
  refine ⟨rfl, rfl, rfl⟩

/-- Witness for the amended C3 theorem at a concrete Watcher state. -/
theorem idle_grace_armed_and_not_cancelled_by_attach_witness :
    ((⟨[], some (60, TimerAction.stopW)⟩ : WatcherSt).sseClients = [] →
      (keepAliveWatcher 30 ⟨[], some (60, TimerAction.stopW)⟩).idleTimer =
        some (30 + 60, TimerAction.stopW)) ∧
    attachStream 30 (some ⟨[], some (60, TimerAction.stopW)⟩) 7 =
      some { (⟨[], some (60, TimerAction.stopW)⟩ : WatcherSt) with
               sseClients := (⟨[], some (60, TimerAction.stopW)⟩ : WatcherSt).sseClients ++ [7] } ∧
    ((⟨[], some (60, TimerAction.stopW)⟩ : WatcherSt).idleTimer =
        some (60, TimerAction.stopW) →
      fireIdleTimer (some ⟨[], some (60, TimerAction.stopW)⟩) = none) :=
  idle_grace_armed_and_not_cancelled_by_attach 30 60
    ⟨[], some (60, TimerAction.stopW)⟩ 7

/-- Embeds the zod `ConnType` / `ServerSettings` validation (lines 70-77):
`server`, `username`, `password` of length at least 1, `port` a positive
integer, and `connection` one of the two enum literals "SSL/TLS" and
"STARTTLS"; anything else is a validation error, and a successful parse
passes the settings through unchanged. -/
def parseServerSettings (r : ServerSettings) : Except Err ServerSettings :=
  if r.server.length ≥ 1 ∧ 0 < r.port ∧ r.username.length ≥ 1 ∧
      r.password.length ≥ 1 ∧
      (r.connection = "SSL/TLS" ∨ r.connection = "STARTTLS") then
    .ok r
  else .error .validationError

/-- The nodemailer transport options built by `smtpTransportFromSecret`
(lines 130-142): `secure` requests implicit TLS on connect and
`requireTLS` requests a mandatory STARTTLS upgrade that fails closed
when the server does not offer it. -/
structure SmtpTransport where
  host : String
  port : Int
  secure : Bool
  authUser : String
  authPass : String
  requireTLS : Bool
deriving DecidableEq

/-- Embeds `smtpTransportFromSecret(secret)` (lines 130-142):
`secure = (connection === "SSL/TLS")` and
`requireTLS = (connection === "STARTTLS")`. -/
def smtpTransportFromSecret (secret : Secret) : SmtpTransport :=
  { host := secret.smtp.server
    port := secret.smtp.port
    secure := secret.smtp.connection == "SSL/TLS"
    authUser := secret.smtp.username
    authPass := secret.smtp.password
    requireTLS := secret.smtp.connection == "STARTTLS" }

/-- C6 (amended): the connection enum accepted at the public interface is
{"SSL/TLS", "STARTTLS"} — the literal "TLS" itself is rejected as a
validation error — and the constructed transport uses implicit TLS
(`secure`) exactly when the connection is "SSL/TLS" and a mandatory
fail-closed STARTTLS upgrade (`requireTLS`) exactly when it is
"STARTTLS"; the two modes are mutually exclusive. -/
theorem connection_modes
    (r r2 : ServerSettings) (h : parseServerSettings r = .ok r2) (s : Secret)
    (hs : s.smtp = r2) :
    (r2.connection = "SSL/TLS" ∨ r2.connection = "STARTTLS") ∧
    ((smtpTransportFromSecret s).secure = true ↔ r2.connection = "SSL/TLS") ∧
    ((smtpTransportFromSecret s).requireTLS = true ↔
      r2.connection = "STARTTLS") ∧
    ¬((smtpTransportFromSecret s).secure = true ∧
      (smtpTransportFromSecret s).requireTLS = true) ∧
    parseServerSettings { r with connection := "TLS" } =
      .error .validationError := by
  rw [parseServerSettings] at h
  split at h
  case isFalse => exact absurd h (by simp)
  case isTrue hcond =>
    have hr : r = r2 := by
      simpa using h
    subst hr
    subst hs
    refine ⟨hcond.2.2.2.2, ?_, ?_, ?_, ?_⟩
    · simp [smtpTransportFromSecret]
    · simp [smtpTransportFromSecret]
    ·
      simp only [smtpTransportFromSecret, beq_iff_eq]
      intro hboth
      rw [hboth.1] at hboth
      exact absurd hboth.2 (by decide)
    · rw [parseServerSettings]
      simp

/-- C6 counterexample: the settings value with connection "SSL/TLS" is
accepted at the public interface, yet "SSL/TLS" is neither of the
claim's literals "TLS" and "STARTTLS" (and the claimed literal "TLS"
itself fails validation). -/
theorem connection_enum_counterexample :
    parseServerSettings
        { server := "smtp.x", port := 587, username := "u", password := "p"
          connection := "SSL/TLS" } =
      .ok { server := "smtp.x", port := 587, username := "u", password := "p"
            connection := "SSL/TLS" } ∧
    ("SSL/TLS" : String) ≠ "TLS" ∧ ("SSL/TLS" : String) ≠ "STARTTLS" ∧
    parseServerSettings
        { server := "smtp.x", port := 587, username := "u", password := "p"
          connection := "TLS" } =
      .error .validationError := by
  refine ⟨rfl, by decide, by decide, rfl⟩

/-- Witness for the amended C6 theorem at the concrete smtp settings of
`secretW` (connection "STARTTLS"). -/
theorem connection_modes_witness :
    (secretW.smtp.connection = "SSL/TLS" ∨
      secretW.smtp.connection = "STARTTLS") ∧
    ((smtpTransportFromSecret secretW).secure = true ↔
      secretW.smtp.connection = "SSL/TLS") ∧
    ((smtpTransportFromSecret secretW).requireTLS = true ↔
      secretW.smtp.connection = "STARTTLS") ∧
    ¬((smtpTransportFromSecret secretW).secure = true ∧
      (smtpTransportFromSecret secretW).requireTLS = true) ∧
    parseServerSettings { secretW.smtp with connection := "TLS" } =
      .error .validationError :=
  connection_modes secretW.smtp secretW.smtp rfl secretW rfl

/-- Embeds the module top level of mailboxRouter.js (lines 1-17, 69-121,
287 and 1318): constructing the Redis client, the zod schemas and the
router, and exporting the router. No top-level statement reads or
validates the master key — `getMasterKey` is reached only through
`hkdfSubkey`, i.e. from inside `encryptJSON`/`decryptJSON` — so loading
the module succeeds for every configuration. -/
def moduleStart (_cfg : Config) : Except Err Unit := .ok ()

/-- C7 (amended): a missing or wrongly sized master key does NOT stop
startup — module load succeeds for every configuration — and the
configuration error instead surfaces from the first encryption or
decryption, which fail with exactly the `getMasterKey` error. -/
theorem masterkey_error_deferred_to_first_use
    (cfg : Config) (e : Err) (he : getMasterKey cfg = .error e)
    (s : Secret) (aad : String) (salt iv : Nat) (env : Envelope)
    (henv : env.v = 1 ∧ env.alg = "AES-256-GCM") :
    moduleStart cfg = .ok () ∧
    encryptJSON cfg s aad salt iv = .error e ∧
    decryptJSON cfg env aad = .error e := by
  refine ⟨rfl, ?_, ?_⟩
  · simp [encryptJSON, he, Except.map]
  · simp [decryptJSON, henv, hkdfSubkey, he, Except.map]

/-- C7 counterexample: with the master key absent (and likewise with a
31-byte key), startup succeeds — the process does not refuse to start —
and the failure only appears when the first encryption runs. -/
theorem masterkey_startup_counterexample :
    moduleStart none = .ok () ∧
    encryptJSON none secretW (mkAAD "A" "T") 1 2 =
      .error .configRequired ∧
    moduleStart (some (List.replicate 31 0)) = .ok () ∧
    encryptJSON (some (List.replicate 31 0)) secretW (mkAAD "A" "T") 1 2 =
      .error .configNot32 := by
  refine ⟨rfl, rfl, rfl, rfl⟩

/-- Witness for the amended C7 theorem with the master key unset. -/
theorem masterkey_error_deferred_to_first_use_witness :
    moduleStart none = .ok () ∧
    encryptJSON none secretW (mkAAD "A" "T") 1 2 =
      .error .configRequired ∧
    decryptJSON none
        (sealEnvelope (List.replicate 32 0) secretW (mkAAD "A" "T") 1 2)
        (mkAAD "A" "T") =
      .error .configRequired :=
  masterkey_error_deferred_to_first_use none .configRequired rfl
    secretW (mkAAD "A" "T") 1 2
    (sealEnvelope (List.replicate 32 0) secretW (mkAAD "A" "T") 1 2)
    ⟨rfl, rfl⟩

end OmniEmail
